import Mathlib

/-!
Verification of the SimplexViewer compositional-plot pipeline.

The source is a React application with two page variants:
* `src/app/page.tsx` — ternary / tetrahedral / parallel-coordinate plots
  where the normalization denominator is the sum of the selected component
  columns themselves;
* `src/unnamed/part_000` — the tetrahedral "component pool + sliders"
  variant, where the denominator is the sum over a configured component
  pool and rows are additionally filtered by per-column slider targets.

The embedding models CSV cell values exactly as the code consumes them:
PapaParse with `dynamicTyping` stores each cell as a number, a string, or
`undefined` (absent).  The code coerces strings with `parseFloat` and
treats any non-finite result as missing.  We model a numeric cell as an
exact rational, and a string cell by the (optional) rational its parse
yields; `none` stands for the JavaScript `NaN` outcome.  All arithmetic
the pipeline performs on accepted values (sums, divisions, comparisons)
is modelled exactly over `ℚ`.
-/

namespace SimplexViewer

/-- A raw CSV cell as stored after PapaParse `dynamicTyping`: a finite
number, a piece of text (carrying the result that `parseFloat` would
produce on it, `none` meaning `NaN`), or an absent/undefined cell. -/
inductive Value where
  | num (q : ℚ)
  | str (p : Option ℚ)
  | absent
deriving DecidableEq

/-- A data row: a mapping from column name to cell value, modelled as an
association list with distinct keys (PapaParse headers are unique). -/
abbrev Row := List (String × Value)

/-- `row[col]` in JavaScript: the stored cell, or `undefined` when the
column is missing from the row. -/
def cellOf (row : Row) (col : String) : Value :=
  (List.lookup col row).getD Value.absent

/-- The value-coercion step both files perform on every consumed cell:
a number is used as is (stored numbers are finite), a string goes through
`parseFloat` and is kept only when finite, anything else is `NaN`
(modelled `none`).  This single function covers both code shapes: the
string test with `parseFloat` fallback used for component and
performance cells, and the number test with `parseFloat` fallback used
for pool and slider cells, each followed by the `isFinite` test. -/
def resolveValue : Value → Option ℚ
  | .num q => some q
  | .str p => p
  | .absent => none

/-- Resolve a named column of a row to a finite number, if possible. -/
def resolveCell (row : Row) (col : String) : Option ℚ :=
  resolveValue (cellOf row col)

/-- The data displayed by the hover label built in both variants
(`toFixed` string formatting abstracted to the numbers and labels it
prints): each component column paired with its normalized proportion,
then the performance column name and the performance value. -/
structure HoverData where
  components : List (String × ℚ)
  perfLabel : String
  perfValue : ℚ
deriving DecidableEq

/-- One accepted row as accumulated by the pipelines: the normalized
coordinate vector, the performance value, and the hover label data.
(The tetrahedral variants additionally carry the projected x/y/z, which
are a pure function of `normalized`; the render-order sort compares only
`perf`.) -/
structure AcceptedPoint where
  normalized : List ℚ
  perf : ℚ
  hover : HoverData
deriving DecidableEq

/-- The first `data.forEach` body of `src/app/page.tsx` (lines 121-158):
resolve every selected component column and the performance column,
reject on any unresolvable value, reject when the component sum is not
positive, otherwise normalize by the component sum and emit the point
with its hover data.  `none` is the silent row rejection (the early
`return`). -/
def rowPoint (row : Row) (selectedCompCols : List String) (perfCol : String) :
    Option AcceptedPoint :=
  let comps := selectedCompCols.map (fun col => resolveCell row col)
  if comps.any Option.isNone then none else
  match resolveCell row perfCol with
  | none => none
  | some perf =>
    let vals := comps.map (fun v => v.getD 0)
    let sum := vals.foldl (fun acc cur => acc + cur) 0
    if sum ≤ 0 then none
    else
      let normalized := vals.map (fun v => v / sum)
      some { normalized := normalized
             perf := perf
             hover := { components := selectedCompCols.zip normalized
                        perfLabel := perfCol
                        perfValue := perf } }

/-- The second `data.forEach` body of `src/app/page.tsx` (lines 291-318),
used only in the generalized (N ≥ 5) mode: the same resolution, rejection
and normalization steps, retranscribed independently from that code
block, emitting the first `dim - 1` normalized coordinates (the
parallel-coordinate axis values pushed for `i < plotDimension - 1`). -/
def rowAxes (row : Row) (selectedCompCols : List String) (perfCol : String)
    (dim : Nat) : Option (List ℚ) :=
  let comps := selectedCompCols.map (fun col => resolveCell row col)
  if comps.any Option.isNone then none else
  match resolveCell row perfCol with
  | none => none
  | some _ =>
    let vals := comps.map (fun v => v.getD 0)
    let sum := vals.foldl (fun acc cur => acc + cur) 0
    if sum ≤ 0 then none
    else some ((vals.map (fun v => v / sum)).take (dim - 1))

/-- The component-pool denominator of `src/unnamed/part_000`
(lines 198-202): `componentColumns.reduce` summing every pool column
whose value resolves to a finite number and silently skipping the
others.  (Note: an unresolvable pool cell contributes nothing; it does
not reject the row.) -/
def poolTotal (row : Row) (componentColumns : List String) : ℚ :=
  componentColumns.foldl
    (fun sum componentCol =>
      match resolveCell row componentCol with
      | some num => sum + num
      | none => sum)
    0

/-- The slider tolerance constant of `src/unnamed/part_000` (line 196):
`const tolerance = 0.005`. -/
def tolerance : ℚ := 5 / 1000

/-- The body of the `for (const sliderCol of sliderColumns)` loop of
`src/unnamed/part_000` (lines 206-220): the row fails on a slider column
when its value does not resolve to a finite number, when the column has
no target in `sliderValues`, or when the normalized value sits farther
than `tolerance` from the target.  The `return` statements of the loop
are the `true` outcomes. -/
def sliderFails (row : Row) (total : ℚ) (sliderValues : List (String × ℚ))
    (sliderCol : String) : Bool :=
  match resolveCell row sliderCol with
  | none => true
  | some num =>
    match List.lookup sliderCol sliderValues with
    | none => true
    | some target => decide (tolerance < |num / total - target|)

/-- The `data.forEach` body of `src/unnamed/part_000` (lines 197-257):
compute the pool denominator, reject on a non-positive total, then run
the slider-constraint loop, then resolve the four selected component
columns and the performance column, rejecting on any unresolvable value,
and finally normalize by the pool total and emit the point. -/
def acceptRowPool (row : Row) (componentColumns : List String)
    (selectedCompCols : List String) (perfCol : String)
    (sliderColumns : List String) (sliderValues : List (String × ℚ)) :
    Option AcceptedPoint :=
  let total := poolTotal row componentColumns
  if total ≤ 0 then none
  else if sliderColumns.any (sliderFails row total sliderValues)
  then none
  else
    let comps := selectedCompCols.map (fun col => resolveCell row col)
    if comps.any Option.isNone then none else
    match resolveCell row perfCol with
    | none => none
    | some perf =>
      let normalized := (comps.map (fun v => v.getD 0)).map (fun v => v / total)
      some { normalized := normalized
             perf := perf
             hover := { components := selectedCompCols.zip normalized
                        perfLabel := perfCol
                        perfValue := perf } }

/-- The draw-order mode of `src/unnamed/part_000` (`sortOrder` state):
`high` draws high performers last (on top), `low` the reverse. -/
inductive SortOrder where
  | high
  | low
deriving DecidableEq

/-- The comparator of `points.sort` in `src/unnamed/part_000`
(lines 259-263), expressed as a boolean "less or equal": the JavaScript
comparator `left.perf - right.perf` (for `high`) orders ascending by
performance, `right.perf - left.perf` (for `low`) descending. -/
def pointLE (o : SortOrder) (a b : AcceptedPoint) : Bool :=
  match o with
  | .high => decide (a.perf ≤ b.perf)
  | .low => decide (b.perf ≤ a.perf)

/-- `points.sort(comparator)` of `src/unnamed/part_000`.  JavaScript
`Array.prototype.sort` is specified to be stable, and a stable sort
agreeing with a total preorder is unique, so it coincides with
`List.mergeSort` under the boolean comparator. -/
def sortPoints (o : SortOrder) (points : List AcceptedPoint) :
    List AcceptedPoint :=
  points.mergeSort (pointLE o)

/-- A colour-domain override text box: either the empty string, or
non-empty text carrying the result `parseFloat` yields on it (`none`
meaning `NaN`).  The inputs are `cmin` / `cmax` in both files. -/
inductive OverrideInput where
  | empty
  | text (p : Option ℚ)
deriving DecidableEq

/-- `perfValues.length > 0 ? Math.min(...perfValues) : 0` — the
data-derived lower colour bound (both files). -/
def perfMinOf (perfValues : List ℚ) : ℚ :=
  match perfValues with
  | [] => 0
  | x :: xs => xs.foldl min x

/-- `perfValues.length > 0 ? Math.max(...perfValues) : 1` — the
data-derived upper colour bound (both files). -/
def perfMaxOf (perfValues : List ℚ) : ℚ :=
  match perfValues with
  | [] => 1
  | x :: xs => xs.foldl max x

/-- One colour bound: `parseFloat` of the override text when it is
non-empty, the data-derived bound otherwise.  The result is an `Option ℚ` because a non-empty override that
fails to parse leaves the bound `NaN` (`none`); an empty box falls back
to the data-derived bound. -/
def resolvedBound (o : OverrideInput) (dataBound : ℚ) : Option ℚ :=
  match o with
  | .empty => some dataBound
  | .text p => p

/-- The colour domain `(cminNum, cmaxNum)` computed in both files
(page.tsx lines 180-183, part_000 lines 272-275). -/
def colorDomain (perfValues : List ℚ) (cmin cmax : OverrideInput) :
    Option ℚ × Option ℚ :=
  (resolvedBound cmin (perfMinOf perfValues),
   resolvedBound cmax (perfMaxOf perfValues))

/-- The `plotData` computation of `src/app/page.tsx` down to its data
content: the precondition guard (lines 97-102) yielding `none` ("no
plot"), then the accepted points accumulated by the `data.forEach`, and
the colour domain over their performance values.  Trace/layout assembly
around this data is presentation only. -/
def buildPlot (data : List Row) (dimension : Nat)
    (componentCols : List String) (performanceCol : String)
    (cmin cmax : OverrideInput) :
    Option (List AcceptedPoint × (Option ℚ × Option ℚ)) :=
  let selectedCompCols := (componentCols.take dimension).filter (fun c => c != "")
  if data.length = 0 ∨ selectedCompCols.length ≠ dimension ∨ performanceCol = ""
  then none
  else
    let points := data.filterMap (fun row => rowPoint row selectedCompCols performanceCol)
    some (points, colorDomain (points.map AcceptedPoint.perf) cmin cmax)

/-- The `plotData` computation of `src/unnamed/part_000` down to its
data content: the precondition guard (lines 164-172) yielding `none`,
the accepted points of the `data.forEach`, the draw-order sort, and the
colour domain over the sorted performance values. -/
def buildPoolPlot (data : List Row) (componentCols : List String)
    (componentColumns : List String) (performanceCol : String)
    (sliderColumns : List String) (sliderValues : List (String × ℚ))
    (sortOrder : SortOrder) (cmin cmax : OverrideInput) :
    Option (List AcceptedPoint × (Option ℚ × Option ℚ)) :=
  let selectedCompCols := componentCols.filter (fun c => c != "")
  if data.length = 0 ∨ selectedCompCols.length ≠ 4 ∨ performanceCol = ""
      ∨ componentColumns.length = 0
  then none
  else
    let points := sortPoints sortOrder
      (data.filterMap (fun row =>
        acceptRowPool row componentColumns selectedCompCols performanceCol
          sliderColumns sliderValues))
    some (points, colorDomain (points.map AcceptedPoint.perf) cmin cmax)

/-- Tetrahedron vertex `v0 = [0, 0, 0]` (page.tsx line 116, part_000 line 183). -/
noncomputable def v0 : ℝ × ℝ × ℝ := (0, 0, 0)

/-- Tetrahedron vertex `v1 = [1, 0, 0]`. -/
noncomputable def v1 : ℝ × ℝ × ℝ := (1, 0, 0)

/-- Tetrahedron vertex `v2 = [0.5, Math.sqrt(3) / 2, 0]`. -/
noncomputable def v2 : ℝ × ℝ × ℝ := (1 / 2, Real.sqrt 3 / 2, 0)

/-- Tetrahedron vertex `v3 = [0.5, Math.sqrt(3) / 6, Math.sqrt(6) / 3]`. -/
noncomputable def v3 : ℝ × ℝ × ℝ := (1 / 2, Real.sqrt 3 / 6, Real.sqrt 6 / 3)

/-- The tetrahedral barycentric-to-Cartesian projection (page.tsx lines
164-177, part_000 lines 251-255): the weighted sum of the four vertices
with the normalized coordinates `[a, b, c, d]` as weights, computed
componentwise exactly as in the source
(`x = v0[0] * a + v1[0] * b + v2[0] * c + v3[0] * d`, etc.).
Real-number arithmetic models the floating-point evaluation. -/
noncomputable def tetraProject (a b c d : ℝ) : ℝ × ℝ × ℝ :=
  (v0.1 * a + v1.1 * b + v2.1 * c + v3.1 * d,
   v0.2.1 * a + v1.2.1 * b + v2.2.1 * c + v3.2.1 * d,
   v0.2.2 * a + v1.2.2 * b + v2.2.2 * c + v3.2.2 * d)

/-- The React state of `src/unnamed/part_000` that the file-load
callback touches, together with the remaining configuration state. -/
structure AppState where
  data : List Row
  columns : List String
  componentCols : List String
  componentPool : List String
  performanceCol : String
  colorScale : String
  cmin : OverrideInput
  cmax : OverrideInput
  sortOrder : SortOrder
  sliderColumns : List String
  sliderValues : List (String × ℚ)

/-- The `complete` callback of `handleFileChange` in
`src/unnamed/part_000` (lines 52-64): install the parsed rows and the
new column catalog and reset every selection — component dropdowns,
component pool, slider columns, slider targets, performance column.
React batches the setter calls of one event callback into a single
state transition, which the one record update models. -/
def handleFileComplete (s : AppState) (parsedData : List Row)
    (cols : List String) : AppState :=
  { s with
    data := parsedData
    columns := cols
    componentCols := ["", "", "", ""]
    componentPool := []
    sliderColumns := []
    sliderValues := []
    performanceCol := "" }

/-- The normalization denominator of `src/app/page.tsx`: the sum of the
resolved selected component values (line 145), with `0` standing in for
an unresolvable cell — the rejection check runs before the sum, so the
stand-in is never observed on an accepted row. -/
def compTotal (row : Row) (cols : List String) : ℚ :=
  (cols.map (fun c => (resolveCell row c).getD 0)).sum

/-- `a` occurs strictly before `b` in the list `l`. -/
def precedesIn (l : List AcceptedPoint) (a b : AcceptedPoint) : Prop :=
  ∃ i j : Fin l.length, (i : ℕ) < (j : ℕ) ∧ l.get i = a ∧ l.get j = b

/-! ### Concrete rows and points used by counterexamples and witnesses -/

/-- A row whose component field `B` is negative while the component sum
stays positive. -/
def exRowNeg : Row :=
  [("A", .num 2), ("B", .num (-1)), ("C", .num 1), ("P", .num 10)]

/-- A small two-component row. -/
def exRowAB : Row := [("A", .num 1), ("B", .num 1), ("P", .num 10)]

/-- A row whose pool field `E` holds unparseable text while everything
else is numeric. -/
def exRowPoolText : Row :=
  [("A", .num 1), ("B", .num 1), ("C", .num 1), ("D", .num 1),
   ("E", .str none), ("P", .num 7)]

/-- A well-formed nonnegative three-component row. -/
def exRowGood : Row :=
  [("A", .num 1), ("B", .num 1), ("C", .num 2), ("P", .num 5)]

/-- The accepted point `exRowGood` yields for components `A`, `B`, `C`
and performance `P`. -/
def exPtGood : AcceptedPoint :=
  { normalized := [1/4, 1/4, 1/2]
    perf := 5
    hover := { components := [("A", 1/4), ("B", 1/4), ("C", 1/2)]
               perfLabel := "P"
               perfValue := 5 } }

/-- A five-column pool row with all values `1`. -/
def exRowPool : Row :=
  [("A", .num 1), ("B", .num 1), ("C", .num 1), ("D", .num 1),
   ("E", .num 1), ("P", .num 2)]

/-- The accepted point `exRowPool` yields for pool `A`-`E`, components
`A`-`D` and performance `P`. -/
def exPtPool : AcceptedPoint :=
  { normalized := [1/5, 1/5, 1/5, 1/5]
    perf := 2
    hover := { components := [("A", 1/5), ("B", 1/5), ("C", 1/5), ("D", 1/5)]
               perfLabel := "P"
               perfValue := 2 } }

/-- The end-to-end slider scenario of the spec: normalized `E` is `0.503`
against target `0.5`. -/
def exRowSlider : Row :=
  [("A", .num 100), ("B", .num 200), ("C", .num 100), ("D", .num 97),
   ("E", .num 503), ("P", .num 1)]

/-- A point with performance `1`. -/
def exPtPerf1 : AcceptedPoint :=
  { normalized := [], perf := 1, hover := { components := [], perfLabel := "P", perfValue := 1 } }

/-- A point with performance `2`. -/
def exPtPerf2 : AcceptedPoint :=
  { normalized := [], perf := 2, hover := { components := [], perfLabel := "P", perfValue := 2 } }

/-! ### Helper lemmas -/

/-- The `reduce((acc, cur) => acc + cur, 0)` fold is the list sum. -/
lemma foldl_add_eq_sum (l : List ℚ) (a : ℚ) :
    l.foldl (fun acc cur => acc + cur) a = a + l.sum := by
  induction l generalizing a with
  | nil => simp
  | cons x xs ih => simp [ih, add_assoc]

/-- Dividing every entry by a common denominator divides the sum. -/
lemma sum_map_div (l : List ℚ) (d : ℚ) :
    (l.map (fun v => v / d)).sum = l.sum / d := by
  induction l with
  | nil => simp
  | cons x xs ih => simp [ih, add_div]

/-- The pool-denominator fold is the sum of the resolved pool values,
an unresolvable cell contributing `0`. -/
lemma poolTotal_eq_sum (row : Row) (pool : List String) :
    poolTotal row pool
      = (pool.map (fun c => (resolveCell row c).getD 0)).sum := by
  suffices h : ∀ (l : List String) (a : ℚ),
      l.foldl (fun sum componentCol =>
        match resolveCell row componentCol with
        | some num => sum + num
        | none => sum) a
        = a + (l.map (fun c => (resolveCell row c).getD 0)).sum by
    simpa [poolTotal] using h pool 0
  intro l
  induction l with
  | nil => simp
  | cons c cs ih =>
    intro a
    cases h : resolveCell row c <;> simp [h, ih, add_assoc]

/-- The variadic `Math.min` fold never exceeds its initial value. -/
lemma foldl_min_le_init : ∀ (xs : List ℚ) (x : ℚ), xs.foldl min x ≤ x
  | [], _ => le_refl _
  | y :: ys, x =>
    le_trans (foldl_min_le_init ys (min x y)) (min_le_left x y)

/-- The variadic `Math.min` fold yields a member of its inputs. -/
lemma foldl_min_mem : ∀ (xs : List ℚ) (x : ℚ), xs.foldl min x ∈ x :: xs
  | [], x => by simp
  | y :: ys, x => by
    rw [List.foldl_cons]
    rcases List.mem_cons.mp (foldl_min_mem ys (min x y)) with h1 | h1
    · rw [h1]
      rcases le_total x y with hxy | hxy
      · simp [min_eq_left hxy]
      · simp [min_eq_right hxy]
    · simp [h1]

/-- The variadic `Math.min` fold bounds every input from below. -/
lemma foldl_min_le (xs : List ℚ) (x : ℚ) :
    ∀ y ∈ x :: xs, xs.foldl min x ≤ y := by
  induction xs generalizing x with
  | nil => simp
  | cons z zs ih =>
    intro y hy
    rw [List.foldl_cons]
    rcases List.mem_cons.mp hy with rfl | hy
    · exact le_trans (foldl_min_le_init zs (min y z)) (min_le_left y z)
    · rcases List.mem_cons.mp hy with rfl | hy
      · exact le_trans (foldl_min_le_init zs (min x y)) (min_le_right x y)
      · exact ih (min x z) y (List.mem_cons_of_mem _ hy)

/-- The variadic `Math.max` fold is at least its initial value. -/
lemma init_le_foldl_max : ∀ (xs : List ℚ) (x : ℚ), x ≤ xs.foldl max x
  | [], _ => le_refl _
  | y :: ys, x =>
    le_trans (le_max_left x y) (init_le_foldl_max ys (max x y))

/-- The variadic `Math.max` fold yields a member of its inputs. -/
lemma foldl_max_mem : ∀ (xs : List ℚ) (x : ℚ), xs.foldl max x ∈ x :: xs
  | [], x => by simp
  | y :: ys, x => by
    rw [List.foldl_cons]
    rcases List.mem_cons.mp (foldl_max_mem ys (max x y)) with h1 | h1
    · rw [h1]
      rcases le_total x y with hxy | hxy
      · simp [max_eq_right hxy]
      · simp [max_eq_left hxy]
    · simp [h1]

/-- The variadic `Math.max` fold bounds every input from above. -/
lemma le_foldl_max (xs : List ℚ) (x : ℚ) :
    ∀ y ∈ x :: xs, y ≤ xs.foldl max x := by
  induction xs generalizing x with
  | nil => simp
  | cons z zs ih =>
    intro y hy
    rw [List.foldl_cons]
    rcases List.mem_cons.mp hy with rfl | hy
    · exact le_trans (le_max_left y z) (init_le_foldl_max zs (max y z))
    · rcases List.mem_cons.mp hy with rfl | hy
      · exact le_trans (le_max_right x y) (init_le_foldl_max zs (max x y))
      · exact ih (max x z) y (List.mem_cons_of_mem _ hy)

/-- The component-resolution failure test, as an existential. -/
lemma any_isNone_iff (row : Row) (cols : List String) :
    ((cols.map (fun col => resolveCell row col)).any Option.isNone = true) ↔
      ∃ col ∈ cols, resolveCell row col = none := by
  simp [List.any_eq_true, Option.isNone_iff_eq_none]

/-- The fold the first pass computes is `compTotal`. -/
lemma foldl_vals_eq_compTotal (row : Row) (cols : List String) :
    (((cols.map (fun col => resolveCell row col)).map (fun v => v.getD 0)).foldl
        (fun acc cur => acc + cur) 0) = compTotal row cols := by
  rw [foldl_add_eq_sum, List.map_map, zero_add]
  rfl

/-- Exactly when the first pass of `page.tsx` rejects a row. -/
lemma rowPoint_none_iff (row : Row) (cols : List String) (pc : String) :
    rowPoint row cols pc = none ↔
      ((∃ col ∈ cols, resolveCell row col = none) ∨
        resolveCell row pc = none ∨ compTotal row cols ≤ 0) := by
  simp only [rowPoint]
  by_cases h1 : (cols.map (fun col => resolveCell row col)).any Option.isNone
  · simp only [h1, if_true]
    simp [(any_isNone_iff row cols).mp h1]
  · rw [if_neg (by simp [h1])]
    cases hp : resolveCell row pc with
    | none => simp [(any_isNone_iff row cols).not.mp h1, hp]
    | some perf =>
      rw [foldl_vals_eq_compTotal]
      by_cases h2 : compTotal row cols ≤ 0
      · simp [h2]
      · simp [h2, (any_isNone_iff row cols).not.mp h1, hp]

/-- What an accepted row of the first pass of `page.tsx` looks like. -/
lemma rowPoint_some_spec (row : Row) (cols : List String) (pc : String)
    (p : AcceptedPoint) (h : rowPoint row cols pc = some p) :
    (∀ col ∈ cols, resolveCell row col ≠ none) ∧
    0 < compTotal row cols ∧
    p.normalized
      = cols.map (fun c => (resolveCell row c).getD 0 / compTotal row cols) ∧
    resolveCell row pc = some p.perf := by
  simp only [rowPoint] at h
  by_cases h1 : (cols.map (fun col => resolveCell row col)).any Option.isNone
  · simp [h1] at h
  · rw [if_neg (by simp [h1])] at h
    cases hp : resolveCell row pc with
    | none => rw [hp] at h; simp at h
    | some perf =>
      rw [foldl_vals_eq_compTotal] at h
      simp only [hp] at h
      by_cases h2 : compTotal row cols ≤ 0
      · simp [h2] at h
      · rw [if_neg h2] at h
        refine ⟨?_, lt_of_not_ge h2, ?_, ?_⟩
        · intro col hcol
          have := (any_isNone_iff row cols).not.mp h1
          push_neg at this
          exact this col hcol
        · have hn := congrArg AcceptedPoint.normalized (Option.some.inj h)
          simp only [← hn]
          rw [List.map_map, List.map_map]
          rfl
        · have hperf := congrArg AcceptedPoint.perf (Option.some.inj h)
          simp only [← hperf]

/-- A slider column does not fail exactly when its value resolves, it
has a target, and the normalized value is within tolerance. -/
lemma sliderFails_eq_false_iff (row : Row) (total : ℚ)
    (sv : List (String × ℚ)) (sliderCol : String) :
    sliderFails row total sv sliderCol = false ↔
      ∃ num target, resolveCell row sliderCol = some num ∧
        List.lookup sliderCol sv = some target ∧
        |num / total - target| ≤ tolerance := by
  rw [sliderFails]
  cases hr : resolveCell row sliderCol with
  | none => simp
  | some num =>
    cases hl : List.lookup sliderCol sv with
    | none => simp
    | some target => simp [not_lt]

/-- What an accepted row of the pool variant looks like. -/
lemma acceptRowPool_some_spec (row : Row)
    (componentColumns selected : List String) (pc : String)
    (sc : List String) (sv : List (String × ℚ)) (p : AcceptedPoint)
    (h : acceptRowPool row componentColumns selected pc sc sv = some p) :
    0 < poolTotal row componentColumns ∧
    (∀ col ∈ selected, resolveCell row col ≠ none) ∧
    p.normalized
      = selected.map
          (fun c => (resolveCell row c).getD 0 / poolTotal row componentColumns) ∧
    resolveCell row pc = some p.perf := by
  simp only [acceptRowPool] at h
  by_cases h0 : poolTotal row componentColumns ≤ 0
  · simp [h0] at h
  · rw [if_neg h0] at h
    by_cases hs : sc.any (sliderFails row (poolTotal row componentColumns) sv)
    · simp [hs] at h
    · rw [if_neg (by simp [hs])] at h
      by_cases h1 : (selected.map (fun col => resolveCell row col)).any Option.isNone
      · simp [h1] at h
      · rw [if_neg (by simp [h1])] at h
        cases hp : resolveCell row pc with
        | none => simp only [hp] at h; simp at h
        | some perf =>
          simp only [hp] at h
          refine ⟨lt_of_not_ge h0, ?_, ?_, ?_⟩
          · intro col hcol
            have := (any_isNone_iff row selected).not.mp h1
            push_neg at this
            exact this col hcol
          · have hn := congrArg AcceptedPoint.normalized (Option.some.inj h)
            simp only [← hn]
            rw [List.map_map, List.map_map]
            rfl
          · have hperf := congrArg AcceptedPoint.perf (Option.some.inj h)
            simp only [← hperf]

/-- Exactly when the pool variant rejects a row, with no slider
constraints configured: non-positive pool total, an unresolvable
selected component, or an unresolvable performance value.  An
unresolvable cell of a non-selected pool column never appears here: the
denominator fold skips it. -/
lemma acceptRowPool_none_iff (row : Row)
    (componentColumns selected : List String) (pc : String) :
    acceptRowPool row componentColumns selected pc [] [] = none ↔
      (poolTotal row componentColumns ≤ 0 ∨
        (∃ col ∈ selected, resolveCell row col = none) ∨
        resolveCell row pc = none) := by
  simp only [acceptRowPool, List.any_nil, Bool.false_eq_true, if_false]
  by_cases h0 : poolTotal row componentColumns ≤ 0
  · simp [h0]
  · rw [if_neg h0]
    by_cases h1 : (selected.map (fun col => resolveCell row col)).any Option.isNone
    · simp only [h1, if_true]
      simp [h0, (any_isNone_iff row selected).mp h1]
    · rw [if_neg (by simp [h1])]
      cases hp : resolveCell row pc with
      | none => simp [h0, (any_isNone_iff row selected).not.mp h1, hp]
      | some perf => simp [h0, (any_isNone_iff row selected).not.mp h1, hp]

/-- A row that passes normalization (positive pool total, resolvable
selected components and performance) is accepted exactly when every
slider column resolves, has a target, and is within tolerance. -/
lemma acceptRowPool_isSome_iff (row : Row)
    (componentColumns selected : List String) (pc : String)
    (sc : List String) (sv : List (String × ℚ))
    (htotal : 0 < poolTotal row componentColumns)
    (hcomps : ∀ col ∈ selected, resolveCell row col ≠ none)
    (hperf : resolveCell row pc ≠ none) :
    (acceptRowPool row componentColumns selected pc sc sv).isSome = true ↔
      ∀ sliderCol ∈ sc, ∃ num target,
        resolveCell row sliderCol = some num ∧
        List.lookup sliderCol sv = some target ∧
        |num / poolTotal row componentColumns - target| ≤ tolerance := by
  simp only [acceptRowPool]
  rw [if_neg (not_le.mpr htotal)]
  by_cases hs : sc.any (sliderFails row (poolTotal row componentColumns) sv)
  · simp only [hs, if_true, Option.isSome_none]
    constructor
    · intro hfalse; exact absurd hfalse (by simp)
    · intro hall
      obtain ⟨sliderCol, hmem, hfail⟩ := List.any_eq_true.mp hs
      have := (sliderFails_eq_false_iff row (poolTotal row componentColumns)
        sv sliderCol).mpr (hall sliderCol hmem)
      rw [this] at hfail
      exact absurd hfail (by simp)
  · rw [if_neg (by simp [hs])]
    have h1 : ¬ (selected.map (fun col => resolveCell row col)).any Option.isNone := by
      rw [any_isNone_iff]
      push_neg
      exact hcomps
    rw [if_neg (by simp [h1])]
    cases hp : resolveCell row pc with
    | none => exact absurd hp hperf
    | some perf =>
      simp only [hp, Option.isSome_some, true_iff]
      intro sliderCol hmem
      rw [← sliderFails_eq_false_iff row (poolTotal row componentColumns) sv]
      rcases Bool.eq_false_or_eq_true (sliderFails row (poolTotal row componentColumns) sv sliderCol) with hf | hf
      · exact absurd (List.any_eq_true.mpr ⟨sliderCol, hmem, hf⟩) hs
      · exact hf

/-- The sort comparator is transitive. -/
lemma pointLE_trans (o : SortOrder) :
    ∀ a b c : AcceptedPoint,
      pointLE o a b → pointLE o b c → pointLE o a c := by
  cases o <;> intro a b c h1 h2 <;>
    simp only [pointLE, decide_eq_true_eq] at h1 h2 ⊢
  · exact le_trans h1 h2
  · exact le_trans h2 h1

/-- The sort comparator is total. -/
lemma pointLE_total (o : SortOrder) :
    ∀ a b : AcceptedPoint, pointLE o a b || pointLE o b a := by
  cases o <;> intro a b <;>
    simp only [pointLE, Bool.or_eq_true, decide_eq_true_eq]
  · exact le_total a.perf b.perf
  · exact le_total b.perf a.perf

/-- The render-order sort is sorted with respect to its comparator. -/
lemma sortPoints_pairwise (o : SortOrder) (l : List AcceptedPoint) :
    (sortPoints o l).Pairwise (fun a b => pointLE o a b = true) :=
  List.sorted_mergeSort (pointLE_trans o) (pointLE_total o) l

/-- Stability of the render-order sort: the points carrying any given
performance value appear in the output in their input order. -/
lemma sortPoints_filter_perf (o : SortOrder) (l : List AcceptedPoint)
    (q : ℚ) :
    (sortPoints o l).filter (fun p => decide (p.perf = q))
        = l.filter (fun p => decide (p.perf = q)) := by
  have hpair : (l.filter (fun p => decide (p.perf = q))).Pairwise
      (fun a b => pointLE o a b = true) := by
    apply List.pairwise_of_forall_mem_list
    intro a ha b hb
    have ha2 : a.perf = q := by simpa using List.of_mem_filter ha
    have hb2 : b.perf = q := by simpa using List.of_mem_filter hb
    cases o <;> simp [pointLE, ha2, hb2]
  have hsub : List.Sublist (l.filter (fun p => decide (p.perf = q)))
      (sortPoints o l) :=
    List.sublist_mergeSort (pointLE_trans o) (pointLE_total o) hpair
      (List.filter_sublist l)
  have hperm : List.Perm
      ((sortPoints o l).filter (fun p => decide (p.perf = q)))
      (l.filter (fun p => decide (p.perf = q))) :=
    (List.mergeSort_perm l (pointLE o)).filter _
  have hidem : (l.filter (fun p => decide (p.perf = q))).filter
      (fun p => decide (p.perf = q)) = l.filter (fun p => decide (p.perf = q)) := by
    rw [List.filter_eq_self]
    intro a ha
    exact (List.mem_filter.mp ha).2
  have hsub2 : List.Sublist (l.filter (fun p => decide (p.perf = q)))
      ((sortPoints o l).filter (fun p => decide (p.perf = q))) := by
    have hfs := hsub.filter (fun p => decide (p.perf = q))
    rwa [hidem] at hfs
  exact (hsub2.eq_of_length hperm.length_eq.symm).symm

/-- Sorting twice with the same mode changes nothing the second time. -/
lemma sortPoints_idem (o : SortOrder) (l : List AcceptedPoint) :
    sortPoints o (sortPoints o l) = sortPoints o l :=
  List.mergeSort_of_sorted (sortPoints_pairwise o l)

/-- In a list sorted ascending by performance, any member with strictly
smaller performance occurs before any member with larger performance. -/
lemma precedesIn_of_pairwise_le (m : List AcceptedPoint)
    (a b : AcceptedPoint)
    (hpair : m.Pairwise (fun x y => x.perf ≤ y.perf))
    (ha : a ∈ m) (hb : b ∈ m) (hlt : a.perf < b.perf) :
    precedesIn m a b := by
  obtain ⟨i, hi⟩ := List.mem_iff_get.mp ha
  obtain ⟨j, hj⟩ := List.mem_iff_get.mp hb
  refine ⟨i, j, ?_, hi, hj⟩
  rcases lt_trichotomy (i : ℕ) (j : ℕ) with h | h | h
  · exact h
  · exfalso
    have hab : a = b := by rw [← hi, ← hj]; congr 1; exact Fin.ext h
    rw [hab] at hlt
    exact lt_irrefl _ hlt
  · exfalso
    have hba := List.pairwise_iff_get.mp hpair j i h
    rw [hi, hj] at hba
    exact absurd hlt (not_lt.mpr hba)

/-- In a list sorted descending by performance, any member with strictly
larger performance occurs before any member with smaller performance. -/
lemma precedesIn_of_pairwise_ge (m : List AcceptedPoint)
    (a b : AcceptedPoint)
    (hpair : m.Pairwise (fun x y => y.perf ≤ x.perf))
    (ha : a ∈ m) (hb : b ∈ m) (hlt : b.perf < a.perf) :
    precedesIn m a b := by
  obtain ⟨i, hi⟩ := List.mem_iff_get.mp ha
  obtain ⟨j, hj⟩ := List.mem_iff_get.mp hb
  refine ⟨i, j, ?_, hi, hj⟩
  rcases lt_trichotomy (i : ℕ) (j : ℕ) with h | h | h
  · exact h
  · exfalso
    have hab : a = b := by rw [← hi, ← hj]; congr 1; exact Fin.ext h
    rw [hab] at hlt
    exact lt_irrefl _ hlt
  · exfalso
    have hba := List.pairwise_iff_get.mp hpair j i h
    rw [hi, hj] at hba
    exact absurd hlt (not_lt.mpr hba)

/-- The two row traversals of the generalized mode compute, per row, the
same acceptance decision, the axis values being an initial segment of
the normalized vector of the first pass. -/
lemma rowAxes_eq_map (row : Row) (cols : List String) (pc : String)
    (dim : Nat) :
    rowAxes row cols pc dim
      = (rowPoint row cols pc).map (fun p => p.normalized.take (dim - 1)) := by
  simp only [rowAxes, rowPoint]
  by_cases h1 : (cols.map (fun col => resolveCell row col)).any Option.isNone
  · simp [h1]
  · rw [if_neg (by simp [h1]), if_neg (by simp [h1])]
    cases hp : resolveCell row pc with
    | none => simp
    | some perf =>
      split <;> rename_i h2
      · simp at h2
      · injection h2 with h2
        subst h2
        split <;> rename_i h3 <;> simp [h3]

/-! ### Claim theorems -/

/-- C2 counterexample: in the pool variant, a pool column (`E`) holding
unparseable text does not reject the row — the denominator fold skips
it and the row is accepted — contradicting the claim that an
unresolvable pool field value causes rejection. -/
theorem claim2_counterexample :
    resolveCell exRowPoolText "E" = none ∧
    (acceptRowPool exRowPoolText ["A", "B", "C", "D", "E"]
        ["A", "B", "C", "D"] "P" [] []).isSome = true := by
  constructor <;> with_unfolding_all decide

/-- C2 amended: a row is rejected by normalization exactly when a
selected component value or the performance value fails to resolve to a
finite number, or the normalization denominator is ≤ 0 — where, in the
pool variant, the denominator is the sum of only the resolvable pool
field values, an unresolvable pool cell being skipped rather than
rejecting the row. -/
theorem claim2_amended :
    (∀ (row : Row) (cols : List String) (perfCol : String),
      rowPoint row cols perfCol = none ↔
        ((∃ col ∈ cols, resolveCell row col = none) ∨
          resolveCell row perfCol = none ∨ compTotal row cols ≤ 0)) ∧
    (∀ (row : Row) (componentColumns selected : List String)
        (perfCol : String),
      acceptRowPool row componentColumns selected perfCol [] [] = none ↔
        (poolTotal row componentColumns ≤ 0 ∨
          (∃ col ∈ selected, resolveCell row col = none) ∨
          resolveCell row perfCol = none)) :=
  ⟨rowPoint_none_iff, acceptRowPool_none_iff⟩

/-- C3 counterexample: selecting the same column twice
(`["A", "A", "B"]` with N = 3) violates the claimed distinctness
precondition, yet the build still returns a non-empty plot containing
one accepted point. -/
theorem claim3_counterexample :
    ¬ (["A", "A", "B"] : List String).Nodup ∧
    (buildPlot [exRowAB] 3 ["A", "A", "B"] "P" OverrideInput.empty
        OverrideInput.empty).isSome = true ∧
    (buildPlot [exRowAB] 3 ["A", "A", "B"] "P" OverrideInput.empty
        OverrideInput.empty).map (fun r => r.1.length) = some 1 := by
  refine ⟨by decide, ?_, ?_⟩ <;> with_unfolding_all decide

/-- C3 amended: the build returns Empty exactly when the dataset is
empty, the number of selected (non-blank) component fields differs from
N (4 in the pool variant), the performance field is unselected, or (pool
variant) the pool is empty.  Distinctness of the selected fields and
their membership in the pool are not checked by the build guard. -/
theorem claim3_amended :
    (∀ (data : List Row) (dimension : Nat) (componentCols : List String)
        (performanceCol : String) (cmin cmax : OverrideInput),
      buildPlot data dimension componentCols performanceCol cmin cmax = none ↔
        (data = [] ∨
          ((componentCols.take dimension).filter (fun c => c != "")).length
              ≠ dimension ∨
          performanceCol = "")) ∧
    (∀ (data : List Row) (componentCols componentColumns : List String)
        (performanceCol : String) (sliderColumns : List String)
        (sliderValues : List (String × ℚ)) (sortOrder : SortOrder)
        (cmin cmax : OverrideInput),
      buildPoolPlot data componentCols componentColumns performanceCol
          sliderColumns sliderValues sortOrder cmin cmax = none ↔
        (data = [] ∨
          (componentCols.filter (fun c => c != "")).length ≠ 4 ∨
          performanceCol = "" ∨ componentColumns = [])) := by
  constructor
  · intro data dim cc pc c1 c2
    simp only [buildPlot]
    split <;> rename_i h <;> simp_all [List.length_eq_zero]
  · intro data cc pool pc sc sv o c1 c2
    simp only [buildPoolPlot]
    split <;> rename_i h <;> simp_all [List.length_eq_zero]

/-- C5: a row of the pool-plus-sliders variant that passes normalization
(positive pool total, resolvable selected components and performance) is
accepted if and only if every slider-constrained field resolves to a
finite number, has a target set, and its value normalized by the pool
denominator is within `tolerance = 0.005` of that target; an
unresolvable constrained field or an unset target fails the row. -/
theorem claim5_slider_filter (row : Row)
    (componentColumns selected : List String) (performanceCol : String)
    (sliderColumns : List String) (sliderValues : List (String × ℚ))
    (htotal : 0 < poolTotal row componentColumns)
    (hcomps : ∀ col ∈ selected, resolveCell row col ≠ none)
    (hperf : resolveCell row performanceCol ≠ none) :
    (acceptRowPool row componentColumns selected performanceCol
        sliderColumns sliderValues).isSome = true ↔
      ∀ sliderCol ∈ sliderColumns, ∃ num target,
        resolveCell row sliderCol = some num ∧
        List.lookup sliderCol sliderValues = some target ∧
        |num / poolTotal row componentColumns - target| ≤ tolerance :=
  acceptRowPool_isSome_iff row componentColumns selected performanceCol
    sliderColumns sliderValues htotal hcomps hperf

set_option maxRecDepth 4000 in
/-- C5 witness: scenario D of the spec — pool total 1000, slider column
`E` with value 503 (normalized 0.503) against target 0.5 — is accepted,
via `claim5_slider_filter`. -/
theorem claim5_witness :
    (acceptRowPool exRowSlider ["A", "B", "C", "D", "E"]
        ["A", "B", "C", "D"] "P" ["E"] [("E", 1/2)]).isSome = true := by
  refine (claim5_slider_filter exRowSlider ["A", "B", "C", "D", "E"]
      ["A", "B", "C", "D"] "P" ["E"] [("E", 1/2)]
      (by with_unfolding_all decide)
      (by with_unfolding_all decide)
      (by with_unfolding_all decide)).mpr ?_
  intro sliderCol hmem
  rcases List.mem_singleton.mp hmem with rfl
  exact ⟨503, 1/2, by with_unfolding_all decide,
    by with_unfolding_all decide, by with_unfolding_all decide⟩

/-- C1 counterexample: (i) a row with a negative component value
(`B = -1`) is accepted with a negative normalized entry, refuting "all
entries ≥ 0"; (ii) in the pool variant, selecting the same column three
times (`["A", "A", "A", "B"]` over pool `{A, B}`) yields an accepted
point whose coordinates sum to `2 > 1`, refuting "the sum is ≤ 1 when a
larger pool is configured". -/
theorem claim1_counterexample :
    (rowPoint exRowNeg ["A", "B", "C"] "P").map (fun p => p.normalized)
        = some [1, -1/2, 1/2] ∧
    ¬ ((0 : ℚ) ≤ -1/2) ∧
    (acceptRowPool exRowAB ["A", "B"] ["A", "A", "A", "B"] "P" [] []).map
        (fun p => p.normalized.sum) = some 2 ∧
    ¬ ((2 : ℚ) ≤ 1) := by
  refine ⟨?_, ?_, ?_, ?_⟩ <;> with_unfolding_all decide

/-- C1 amended: for every accepted point, the normalized entries sum
exactly to 1 when no pool is configured; the entries are all ≥ 0
provided the resolved values of the relevant fields are ≥ 0 (the code
never checks for negative inputs); and with a pool configured the sum is
≤ 1 provided additionally that the selected component fields are
distinct and drawn from the pool and that the resolved values of the
pool fields are ≥ 0 (the pool is kept duplicate-free by the UI state). -/
theorem claim1_amended :
    (∀ (row : Row) (cols : List String) (perfCol : String)
        (p : AcceptedPoint),
      rowPoint row cols perfCol = some p →
        p.normalized.sum = 1 ∧
        ((∀ col ∈ cols, ∀ q, resolveCell row col = some q → 0 ≤ q) →
          ∀ q ∈ p.normalized, 0 ≤ q)) ∧
    (∀ (row : Row) (componentColumns selected : List String)
        (perfCol : String) (sc : List String) (sv : List (String × ℚ))
        (p : AcceptedPoint),
      acceptRowPool row componentColumns selected perfCol sc sv = some p →
        (∀ col ∈ componentColumns, ∀ q, resolveCell row col = some q → 0 ≤ q) →
        (∀ col ∈ selected, col ∈ componentColumns) →
          ((∀ q ∈ p.normalized, 0 ≤ q) ∧
            (selected.Nodup → componentColumns.Nodup →
              p.normalized.sum ≤ 1))) := by
  constructor
  · intro row cols pc p h
    obtain ⟨hres, htotal, hnorm, -⟩ := rowPoint_some_spec row cols pc p h
    constructor
    · rw [hnorm]
      have : cols.map (fun c => (resolveCell row c).getD 0 / compTotal row cols)
          = (cols.map (fun c => (resolveCell row c).getD 0)).map
              (fun v => v / compTotal row cols) := by
        rw [List.map_map]; rfl
      rw [this, sum_map_div]
      exact div_self (ne_of_gt htotal)
    · intro hnonneg q hq
      rw [hnorm] at hq
      obtain ⟨col, hcol, rfl⟩ := List.mem_map.mp hq
      refine div_nonneg ?_ (le_of_lt htotal)
      cases hr : resolveCell row col with
      | none => simp
      | some v => simpa using hnonneg col hcol v hr
  · intro row pool selected pc sc sv p h hnonneg hsubset
    obtain ⟨htotal, hres, hnorm, -⟩ :=
      acceptRowPool_some_spec row pool selected pc sc sv p h
    constructor
    · intro q hq
      rw [hnorm] at hq
      obtain ⟨col, hcol, rfl⟩ := List.mem_map.mp hq
      refine div_nonneg ?_ (le_of_lt htotal)
      cases hr : resolveCell row col with
      | none => simp
      | some v => simpa using hnonneg col (hsubset col hcol) v hr
    · intro hnd hpoolnd
      rw [hnorm]
      have hmm : selected.map
            (fun c => (resolveCell row c).getD 0 / poolTotal row pool)
          = (selected.map (fun c => (resolveCell row c).getD 0)).map
              (fun v => v / poolTotal row pool) := by
        rw [List.map_map]; rfl
      rw [hmm, sum_map_div, div_le_one htotal, poolTotal_eq_sum]
      have hfnonneg : ∀ c ∈ pool, 0 ≤ (resolveCell row c).getD 0 := by
        intro c hc
        cases hr : resolveCell row c with
        | none => simp
        | some v => simpa using hnonneg c hc v hr
      rw [← List.sum_toFinset _ hnd, ← List.sum_toFinset _ hpoolnd]
      refine Finset.sum_le_sum_of_subset_of_nonneg ?_ ?_
      · intro x hx
        rw [List.mem_toFinset] at hx ⊢
        exact hsubset x hx
      · intro i hi _
        exact hfnonneg i (List.mem_toFinset.mp hi)

/-- C1 witness: via `claim1_amended`, the accepted point of `exRowGood`
(components 1, 1, 2) has coordinates summing to 1 and all ≥ 0, and the
accepted point of `exRowPool` (pool of five fields, four plotted) has
coordinates all ≥ 0 summing to at most 1. -/
theorem claim1_witness :
    exPtGood.normalized.sum = 1 ∧ (∀ q ∈ exPtGood.normalized, 0 ≤ q) ∧
    (∀ q ∈ exPtPool.normalized, 0 ≤ q) ∧ exPtPool.normalized.sum ≤ 1 := by
  have h1 := claim1_amended.1 exRowGood ["A", "B", "C"] "P" exPtGood
    (by with_unfolding_all decide)
  have h2 := claim1_amended.2 exRowPool ["A", "B", "C", "D", "E"]
    ["A", "B", "C", "D"] "P" [] [] exPtPool
    (by with_unfolding_all decide)
    (by with_unfolding_all decide)
    (by with_unfolding_all decide)
  exact ⟨h1.1, h1.2 (by with_unfolding_all decide),
    h2.1, h2.2 (by decide) (by decide)⟩

/-- C4: in the 4-component mode the projector is the weighted vertex sum
over `v0 = (0,0,0)`, `v1 = (1,0,0)`, `v2 = (0.5, √3/2, 0)`,
`v3 = (0.5, √3/6, √6/3)`; the four unit coordinate vectors map exactly
to `v0`, `v1`, `v2`, `v3`, and the centroid `(¼,¼,¼,¼)` maps to the
average of the four vertices. -/
theorem claim4_tetra_projection :
    tetraProject 1 0 0 0 = v0 ∧ tetraProject 0 1 0 0 = v1 ∧
    tetraProject 0 0 1 0 = v2 ∧ tetraProject 0 0 0 1 = v3 ∧
    tetraProject (1/4) (1/4) (1/4) (1/4)
      = ((v0.1 + v1.1 + v2.1 + v3.1) / 4,
         (v0.2.1 + v1.2.1 + v2.2.1 + v3.2.1) / 4,
         (v0.2.2 + v1.2.2 + v2.2.2 + v3.2.2) / 4) := by
  refine ⟨?_, ?_, ?_, ?_, ?_⟩ <;>
    simp only [tetraProject, v0, v1, v2, v3, Prod.ext_iff] <;>
    refine ⟨by ring, by ring, by ring⟩

/-- C8 counterexample: with one accepted performance value `5`, a
non-empty but unparseable `cmin` override does not fall back to the
data-derived bound: the computed domain differs from the no-override
domain, the overridden bound being `NaN` (`none`) instead of `5`. -/
theorem claim8_counterexample :
    colorDomain [5] (OverrideInput.text none) OverrideInput.empty
        ≠ colorDomain [5] OverrideInput.empty OverrideInput.empty ∧
    colorDomain [5] (OverrideInput.text none) OverrideInput.empty
        = (none, some 5) ∧
    colorDomain [5] OverrideInput.empty OverrideInput.empty
        = (some 5, some 5) := by
  refine ⟨?_, ?_, ?_⟩ <;> with_unfolding_all decide

/-- C8 amended: a non-empty override makes the bound exactly its parse
result — `none` (`NaN`) when the text is unparseable, never the
data-derived bound; only an empty override falls back to the
data-derived min/max. -/
theorem claim8_amended (perfValues : List ℚ) (o : OverrideInput)
    (p : Option ℚ) :
    (colorDomain perfValues (OverrideInput.text p) o).1 = p ∧
    (colorDomain perfValues o (OverrideInput.text p)).2 = p ∧
    (colorDomain perfValues OverrideInput.empty o).1
        = some (perfMinOf perfValues) ∧
    (colorDomain perfValues o OverrideInput.empty).2
        = some (perfMaxOf perfValues) :=
  ⟨rfl, rfl, rfl, rfl⟩

/-- C9: loading a new dataset installs the parsed rows and the new
column catalog and, in the same state transition, clears the component
selections, the component pool, the slider (constraint) columns and
their targets, and the performance column, so the new configuration
references no field of a previously loaded dataset. -/
theorem claim9_reset (s : AppState) (d : List Row) (cols : List String) :
    (handleFileComplete s d cols).data = d ∧
    (handleFileComplete s d cols).columns = cols ∧
    (handleFileComplete s d cols).componentCols = ["", "", "", ""] ∧
    (handleFileComplete s d cols).componentPool = [] ∧
    (handleFileComplete s d cols).sliderColumns = [] ∧
    (handleFileComplete s d cols).sliderValues = [] ∧
    (handleFileComplete s d cols).performanceCol = "" :=
  ⟨rfl, rfl, rfl, rfl, rfl, rfl, rfl⟩

/-- C6: the colour domain is `(0, 1)` for zero accepted points with no
overrides; with no overrides it is the (minimum, maximum) of the
accepted performance values; and when both overrides parse, the domain
is exactly the overrides regardless of the data, with no clamping even
when the override min exceeds the override max. -/
theorem claim6_color_domain :
    colorDomain [] OverrideInput.empty OverrideInput.empty
        = (some 0, some 1) ∧
    (∀ perfValues : List ℚ, perfValues ≠ [] →
      colorDomain perfValues OverrideInput.empty OverrideInput.empty
          = (some (perfMinOf perfValues), some (perfMaxOf perfValues)) ∧
      perfMinOf perfValues ∈ perfValues ∧
      (∀ x ∈ perfValues, perfMinOf perfValues ≤ x) ∧
      perfMaxOf perfValues ∈ perfValues ∧
      (∀ x ∈ perfValues, x ≤ perfMaxOf perfValues)) ∧
    (∀ (perfValues : List ℚ) (a b : ℚ),
      colorDomain perfValues (OverrideInput.text (some a))
          (OverrideInput.text (some b)) = (some a, some b)) := by
  refine ⟨rfl, ?_, fun _ _ _ => rfl⟩
  intro pv hpv
  match pv with
  | x :: xs =>
    refine ⟨rfl, ?_, ?_, ?_, ?_⟩
    · simpa [perfMinOf] using foldl_min_mem xs x
    · simpa [perfMinOf] using foldl_min_le xs x
    · simpa [perfMaxOf] using foldl_max_mem xs x
    · simpa [perfMaxOf] using le_foldl_max xs x

/-- C6 witness: on the performance values `[3, 1, 2]` with no overrides
the domain is `(1, 3)`, and overrides `9` / `2` force the inconsistent
domain `(9, 2)`. -/
theorem claim6_witness :
    colorDomain [3, 1, 2] OverrideInput.empty OverrideInput.empty
        = (some 1, some 3) ∧
    colorDomain [5] (OverrideInput.text (some 9)) (OverrideInput.text (some 2))
        = (some 9, some 2) := by
  constructor
  · have h := (claim6_color_domain.2.1 [3, 1, 2] (by simp)).1
    rw [h]
    with_unfolding_all decide
  · exact claim6_color_domain.2.2 [5] 9 2

/-- C7: the render-order sort orders the accepted points totally by
performance — ascending for `high`, descending for `low` — and is
stable (the points carrying any fixed performance value keep their input
order); sorting twice with the same mode yields the same output; and for
any two points with distinct performance values, reversing the mode
reverses their relative order. -/
theorem claim7_sort_properties :
    (∀ l : List AcceptedPoint,
      (sortPoints SortOrder.high l).Pairwise (fun a b => a.perf ≤ b.perf)) ∧
    (∀ l : List AcceptedPoint,
      (sortPoints SortOrder.low l).Pairwise (fun a b => b.perf ≤ a.perf)) ∧
    (∀ (o : SortOrder) (l : List AcceptedPoint) (q : ℚ),
      (sortPoints o l).filter (fun p => decide (p.perf = q))
          = l.filter (fun p => decide (p.perf = q))) ∧
    (∀ (o : SortOrder) (l : List AcceptedPoint),
      sortPoints o (sortPoints o l) = sortPoints o l) ∧
    (∀ (l : List AcceptedPoint) (a b : AcceptedPoint),
      a ∈ l → b ∈ l → a.perf < b.perf →
        precedesIn (sortPoints SortOrder.high l) a b ∧
        precedesIn (sortPoints SortOrder.low l) b a) := by
  refine ⟨?_, ?_, sortPoints_filter_perf, sortPoints_idem, ?_⟩
  · intro l
    exact (sortPoints_pairwise SortOrder.high l).imp
      (fun hab => by simpa [pointLE] using hab)
  · intro l
    exact (sortPoints_pairwise SortOrder.low l).imp
      (fun hab => by simpa [pointLE] using hab)
  · intro l a b ha hb hlt
    constructor
    · refine precedesIn_of_pairwise_le _ a b
        ((sortPoints_pairwise SortOrder.high l).imp
          (fun hab => by simpa [pointLE] using hab)) ?_ ?_ hlt
      · unfold sortPoints
        exact List.mem_mergeSort.mpr ha
      · unfold sortPoints
        exact List.mem_mergeSort.mpr hb
    · refine precedesIn_of_pairwise_ge _ b a
        ((sortPoints_pairwise SortOrder.low l).imp
          (fun hab => by simpa [pointLE] using hab)) ?_ ?_ hlt
      · unfold sortPoints
        exact List.mem_mergeSort.mpr hb
      · unfold sortPoints
        exact List.mem_mergeSort.mpr ha

/-- C7 witness: on the two-point list with performances 1 and 2, the
`high` mode places the performance-1 point first and the `low` mode the
performance-2 point first, via `claim7_sort_properties`. -/
theorem claim7_witness :
    precedesIn (sortPoints SortOrder.high [exPtPerf1, exPtPerf2])
        exPtPerf1 exPtPerf2 ∧
    precedesIn (sortPoints SortOrder.low [exPtPerf1, exPtPerf2])
        exPtPerf2 exPtPerf1 :=
  claim7_sort_properties.2.2.2.2 [exPtPerf1, exPtPerf2] exPtPerf1 exPtPerf2
    (by simp) (by simp) (by with_unfolding_all decide)

/-- C10: in the generalized (N ≥ 5) mode, the second traversal (axis
values) accepts, row for row, exactly what the first traversal
(performance values and hover texts) accepts — per row its output is the
first `N-1` entries of the normalized vector of the first traversal — so the
filtered row sequences coincide and, at every output index, the axis
values come from the very accepted point whose performance value and
hover text sit at that index. -/
theorem claim10_pass_equivalence (data : List Row) (cols : List String)
    (perfCol : String) (dim : Nat) :
    (∀ row : Row,
      rowAxes row cols perfCol dim
        = (rowPoint row cols perfCol).map
            (fun p => p.normalized.take (dim - 1))) ∧
    data.filter (fun row => (rowAxes row cols perfCol dim).isSome)
        = data.filter (fun row => (rowPoint row cols perfCol).isSome) ∧
    data.filterMap (fun row => rowAxes row cols perfCol dim)
        = (data.filterMap (fun row => rowPoint row cols perfCol)).map
            (fun p => p.normalized.take (dim - 1)) := by
  refine ⟨fun row => rowAxes_eq_map row cols perfCol dim, ?_, ?_⟩
  · apply List.filter_congr
    intro row _
    rw [rowAxes_eq_map]
    cases rowPoint row cols perfCol <;> simp
  · simp only [rowAxes_eq_map, List.map_filterMap]

end SimplexViewer
